import Mathlib

/-!
Shallow embedding of `src/blender/export.py`, the Starframe Blender export
hook.  The hook parses `sys.argv`, rewrites objects that instance a linked
(library-backed) collection, and invokes Blender's glTF exporter with a
fixed option set.  Host-provided entities (objects, collections, libraries)
are modelled as records; `bpy.data.objects` is a list of scene objects, and
removing an object that is no longer present raises, as Blender does with
a `ReferenceError` (modelled with `Except`).  The `for obj in
bpy.data.objects` loop is modelled as iteration over a snapshot of the
initial object list, threading the mutated scene state through each step.
-/

/-! ### Python string primitives used by the script -/

/-- Python `pre_.isPrefixOf`-style `s.startswith(pre)`. -/
def startswith (s pre : String) : Bool :=
  pre.data.isPrefixOf s.data

/-- Python `s.removesuffix(suf)`: drop `suf` from the end when present. -/
def removesuffix (s suf : String) : String :=
  if suf.data.isSuffixOf s.data then ⟨s.data.take (s.data.length - suf.data.length)⟩ else s

/-- Python `s.rstrip("/")`: drop all trailing slash characters. -/
def rstripSlash (s : String) : String :=
  ⟨(s.data.reverse.dropWhile (fun c => c == '/')).reverse⟩

/-! ### Argument parsing (lines 14–25 of the script) -/

/-- `sys.argv[sys.argv.index("--") + 1:]`: the arguments after the first
`"--"` separator, or `none` when `list.index` would raise `ValueError`. -/
def argsAfterSep : List String → Option (List String)
  | [] => none
  | a :: rest => if a = "--" then some rest else argsAfterSep rest

/-- The `try`-block of the script: returns `(target_dir, is_debug_mode)`.
A missing separator (`ValueError`) or an empty tail (`IndexError` on
`args[0]`) is swallowed by the blanket `except`, keeping the defaults
`(".", false)`. -/
def parseArgs (argv : List String) : String × Bool :=
  match argsAfterSep argv with
  | none => (".", false)
  | some [] => (".", false)
  | some (a :: rest) =>
    ((if startswith a "-" then "." else rstripSlash a),
     decide ("--debug" ∈ a :: rest))

/-! ### Scene data model -/

/-- A Blender library: an external `.blend` file, identified by its name. -/
structure Library where
  name : String
deriving DecidableEq

/-- An instance collection: named, optionally backed by a library, with a
list of member objects (identified by their unique Blender names). -/
structure Collection where
  name : String
  library : Option Library
  objects : List String
deriving DecidableEq

/-- The value stored under the `"link"` custom property. -/
structure LinkMarker where
  source : String
  name : String
deriving DecidableEq

/-- A scene object: a name, an optional instance-collection reference, and
the custom-property store (`extras`) holding link markers by key. -/
structure SceneObject where
  name : String
  instance_collection : Option Collection
  extras : List (String × LinkMarker)
deriving DecidableEq

/-- Dictionary-style assignment `obj["link"] = v` on the property store. -/
def setExtra (extras : List (String × LinkMarker)) (k : String) (v : LinkMarker) :
    List (String × LinkMarker) :=
  if extras.any (fun p => p.fst == k) then
    extras.map (fun p => if p.fst == k then (k, v) else p)
  else extras ++ [(k, v)]

/-- The marker recorded on a referencing object (lines 35–38). -/
def linkMarker (coll : Collection) (lib : Library) : LinkMarker :=
  ⟨removesuffix lib.name ".blend", coll.name⟩

/-- A scene object after `obj["link"] = {...}` has been applied to it. -/
def withLink (o : SceneObject) (coll : Collection) (lib : Library) : SceneObject :=
  { o with extras := setExtra o.extras "link" (linkMarker coll lib) }

/-- Apply `obj["link"] = marker` to the scene entry named `n`. -/
def setLink (st : List SceneObject) (n : String) (mk : LinkMarker) : List SceneObject :=
  st.map (fun o => if o.name == n then { o with extras := setExtra o.extras "link" mk } else o)

/-- `bpy.data.objects.remove`: removing an absent (already removed) object
raises a host `ReferenceError`. -/
def removeObject (st : List SceneObject) (n : String) : Except String (List SceneObject) :=
  if st.any (fun o => o.name == n) then
    .ok (st.filter (fun o => o.name != n))
  else
    .error ("ReferenceError: " ++ n)

/-- The inner loop of lines 39–40: remove every member of the collection,
in order, aborting on the first host error. -/
def removeMembers : List SceneObject → List String → Except String (List SceneObject)
  | st, [] => .ok st
  | st, m :: rest =>
    match removeObject st m with
    | .error e => .error e
    | .ok st' => removeMembers st' rest

/-- One iteration of the pre-processing loop (lines 32–40) for the snapshot
record `obj`, acting on the current scene state `st`. -/
def step (st : List SceneObject) (obj : SceneObject) : Except String (List SceneObject) :=
  match obj.instance_collection with
  | none => .ok st
  | some coll =>
    match coll.library with
    | none => .ok st
    | some lib =>
      removeMembers (setLink st obj.name (linkMarker coll lib)) coll.objects

/-- Run the loop body over the snapshot list `l`, threading the state. -/
def processAll : List SceneObject → List SceneObject → Except String (List SceneObject)
  | [], st => .ok st
  | x :: rest, st =>
    match step st x with
    | .error e => .error e
    | .ok st' => processAll rest st'

/-- The whole pre-processing pass: iterate over a snapshot of the scene's
object list, mutating the scene as we go. -/
def preprocess (scene : List SceneObject) : Except String (List SceneObject) :=
  processAll scene scene

/-- The member names that processing `x` would remove from the scene:
empty unless `x` references a library-backed instance collection. -/
def linkedMembers (x : SceneObject) : List String :=
  match x.instance_collection with
  | none => []
  | some coll =>
    match coll.library with
    | none => []
    | some _ => coll.objects

/-! ### Export configuration (lines 42–63) -/

/-- The keyword arguments passed to `bpy.ops.export_scene.gltf`. -/
structure GltfOptions where
  filepath : String
  check_existing : Bool
  export_format : String
  export_image_format : String
  use_visible : Bool
  export_extras : Bool
  export_skins : Bool
  export_animations : Bool
  export_def_bones : Bool
  export_morph : Bool
  export_optimize_animation_size : Bool
  export_yup : Bool
  export_texcoords : Bool
  export_normals : Bool
  export_tangents : Bool
  export_morph_normal : Bool
  export_morph_tangent : Bool
  export_materials : String
  export_colors : Bool
deriving DecidableEq

/-- The exact option set of the `bpy.ops.export_scene.gltf(...)` call. -/
def gltfOptions (target_dir target_file : String) (is_debug_mode : Bool) : GltfOptions where
  filepath := target_dir ++ "/" ++ target_file
  check_existing := false
  export_format := if !is_debug_mode then "GLB" else "GLTF_SEPARATE"
  export_image_format := if !is_debug_mode then "AUTO" else "NONE"
  use_visible := false
  export_extras := true
  export_skins := true
  export_animations := true
  export_def_bones := true
  export_morph := true
  export_optimize_animation_size := true
  export_yup := false
  export_texcoords := true
  export_normals := true
  export_tangents := false
  export_morph_normal := true
  export_morph_tangent := false
  export_materials := "EXPORT"
  export_colors := false

/-- What reaches the exporter: the pre-processed scene and the options. -/
structure ExportOutcome where
  scene : List SceneObject
  options : GltfOptions
deriving DecidableEq

/-- The whole `export` handler.  `blend_file` is
`bpy.path.basename(bpy.data.filepath)`, the current document's file name;
`scene` is the initial `bpy.data.objects`.  A host error raised during the
pre-processing pass propagates out of the hook uncaught. -/
def exportHook (argv : List String) (blend_file : String) (scene : List SceneObject) :
    Except String ExportOutcome :=
  let parsed := parseArgs argv
  let target_file := removesuffix blend_file ".blend"
  match preprocess scene with
  | .error e => .error e
  | .ok scene' => .ok ⟨scene', gltfOptions parsed.1 target_file parsed.2⟩

instance {ε α : Type} [DecidableEq ε] [DecidableEq α] : DecidableEq (Except ε α) := fun x y =>
  match x, y with
  | .error a, .error b =>
    if h : a = b then .isTrue (by rw [h]) else .isFalse (fun hc => h (Except.error.inj hc))
  | .error _, .ok _ => .isFalse (fun hc => Except.noConfusion hc)
  | .ok _, .error _ => .isFalse (fun hc => Except.noConfusion hc)
  | .ok a, .ok b =>
    if h : a = b then .isTrue (by rw [h]) else .isFalse (fun hc => h (Except.ok.inj hc))

/-! ### Concrete scenes used by scenario claims -/

/-- The library backing the demo instance collection. -/
def assetsLib : Library := ⟨"assets.blend"⟩

/-- A linked instance collection with two member objects. -/
def propsColl : Collection := ⟨"Props", some assetsLib, ["m1", "m2"]⟩

/-- The scene object referencing `propsColl`. -/
def refObj : SceneObject := ⟨"ref", some propsColl, []⟩

/-- First member object of `propsColl`. -/
def m1Obj : SceneObject := ⟨"m1", none, []⟩

/-- Second member object of `propsColl`. -/
def m2Obj : SceneObject := ⟨"m2", none, []⟩

/-- One referencing object plus the two collection members. -/
def demoScene : List SceneObject := [refObj, m1Obj, m2Obj]

/-- `refObj` after the pass: marker added, nothing else changed. -/
def refObjAfter : SceneObject := ⟨"ref", some propsColl, [("link", ⟨"assets", "Props"⟩)]⟩

/-- Library shared by two referencing objects. -/
def sharedLib : Library := ⟨"shared.blend"⟩

/-- A linked collection referenced twice, with a single member. -/
def sharedColl : Collection := ⟨"Shared", some sharedLib, ["victim"]⟩

/-- First object referencing `sharedColl`. -/
def dRef1 : SceneObject := ⟨"dref1", some sharedColl, []⟩

/-- Second object referencing `sharedColl`. -/
def dRef2 : SceneObject := ⟨"dref2", some sharedColl, []⟩

/-- The single member of `sharedColl`. -/
def victimObj : SceneObject := ⟨"victim", none, []⟩

/-- Scene in which two objects reference the same linked collection. -/
def doubleScene : List SceneObject := [dRef1, dRef2, victimObj]

/-- Library for the nested-instancing counterexample scene. -/
def nestedLib : Library := ⟨"nested.blend"⟩

/-- Linked collection whose member list holds `objB`. -/
def collC : Collection := ⟨"CollC", some nestedLib, ["B"]⟩

/-- Linked collection whose member list holds `objA` itself. -/
def collD : Collection := ⟨"CollD", some nestedLib, ["A"]⟩

/-- A plain object that is a member of `collC`. -/
def objB : SceneObject := ⟨"B", none, []⟩

/-- Instancer of `collC`; also listed as a member of `collD`. -/
def objA : SceneObject := ⟨"A", some collC, []⟩

/-- Instancer of `collD`, processed after `objA`. -/
def objX : SceneObject := ⟨"X", some collD, []⟩

/-- Scene where a marker-receiving object is itself a linked-collection
member: `objA` gets the marker, then `objX`'s iteration removes it. -/
def nestedScene : List SceneObject := [objB, objA, objX]

/-- Library for the single-instancer witness scene. -/
def soloLib : Library := ⟨"solo.blend"⟩

/-- A linked collection with no members. -/
def soloColl : Collection := ⟨"Solo", some soloLib, []⟩

/-- The only object of the witness scene, instancing `soloColl`. -/
def soloRef : SceneObject := ⟨"solo", some soloColl, []⟩

/-! ### Lemmas about the scene-mutation primitives -/

theorem withLink_name (o : SceneObject) (coll : Collection) (lib : Library) :
    (withLink o coll lib).name = o.name := rfl

theorem removeObject_mem (st st' : List SceneObject) (n : String)
    (h : removeObject st n = .ok st') (o : SceneObject) (ho : o ∈ st') :
    o ∈ st ∧ o.name ≠ n := by
  unfold removeObject at h
  split at h
  · injection h with h
    subst h
    rw [List.mem_filter] at ho
    refine ⟨ho.1, ?_⟩
    simpa using ho.2
  · exact Except.noConfusion h

theorem removeObject_keeps (st st' : List SceneObject) (n : String)
    (h : removeObject st n = .ok st') (o : SceneObject) (ho : o ∈ st) (hne : o.name ≠ n) :
    o ∈ st' := by
  unfold removeObject at h
  split at h
  · injection h with h
    subst h
    exact List.mem_filter.mpr ⟨ho, by simpa using hne⟩
  · exact Except.noConfusion h

theorem removeMembers_mem (ms : List String) (st st' : List SceneObject)
    (h : removeMembers st ms = .ok st') (o : SceneObject) (ho : o ∈ st') : o ∈ st := by
  induction ms generalizing st with
  | nil =>
    unfold removeMembers at h
    injection h with h
    exact h.symm ▸ ho
  | cons m rest ih =>
    unfold removeMembers at h
    cases hr : removeObject st m with
    | error e => rw [hr] at h; exact Except.noConfusion h
    | ok st₁ =>
      rw [hr] at h
      exact (removeObject_mem st st₁ m hr o (ih st₁ h)).1

theorem removeMembers_keeps (ms : List String) (st st' : List SceneObject)
    (h : removeMembers st ms = .ok st') (o : SceneObject) (ho : o ∈ st)
    (hm : o.name ∉ ms) : o ∈ st' := by
  induction ms generalizing st with
  | nil =>
    unfold removeMembers at h
    injection h with h
    exact h ▸ ho
  | cons m rest ih =>
    unfold removeMembers at h
    cases hr : removeObject st m with
    | error e => rw [hr] at h; exact Except.noConfusion h
    | ok st₁ =>
      rw [hr] at h
      have h1 : o ∈ st₁ :=
        removeObject_keeps st st₁ m hr o ho (fun hc => hm (by simp [hc]))
      exact ih st₁ h h1 (fun hc => hm (List.mem_cons_of_mem m hc))

theorem removeMembers_removes (ms : List String) (st st' : List SceneObject)
    (h : removeMembers st ms = .ok st') (m : String) (hm : m ∈ ms) :
    ∀ o ∈ st', o.name ≠ m := by
  induction ms generalizing st with
  | nil => cases hm
  | cons m' rest ih =>
    unfold removeMembers at h
    cases hr : removeObject st m' with
    | error e => rw [hr] at h; exact Except.noConfusion h
    | ok st₁ =>
      rw [hr] at h
      rcases List.mem_cons.mp hm with hm' | hm'
      · subst hm'
        intro o ho
        exact (removeObject_mem st st₁ m hr o (removeMembers_mem rest st₁ st' h o ho)).2
      · exact ih st₁ h hm'

theorem setLink_mem (st : List SceneObject) (n : String) (mk : LinkMarker)
    (o : SceneObject) (ho : o ∈ setLink st n mk) :
    ∃ e ∈ st, e.name = o.name := by
  unfold setLink at ho
  obtain ⟨e, he, hfe⟩ := List.mem_map.mp ho
  refine ⟨e, he, ?_⟩
  rw [← hfe]
  split <;> rfl

theorem setLink_keeps (st : List SceneObject) (n : String) (mk : LinkMarker)
    (o : SceneObject) (ho : o ∈ st) (hne : o.name ≠ n) : o ∈ setLink st n mk := by
  unfold setLink
  have hfo : (fun o' => if o'.name == n then
      { o' with extras := setExtra o'.extras "link" mk } else o') o = o := by
    simp [hne]
  exact hfo ▸ List.mem_map_of_mem _ ho

theorem setLink_marks (st : List SceneObject) (n : String) (mk : LinkMarker)
    (o : SceneObject) (ho : o ∈ st) (hn : o.name = n) :
    { o with extras := setExtra o.extras "link" mk } ∈ setLink st n mk := by
  unfold setLink
  have hfo : (fun o' => if o'.name == n then
      { o' with extras := setExtra o'.extras "link" mk } else o') o
      = { o with extras := setExtra o.extras "link" mk } := by
    simp [hn]
  exact hfo ▸ List.mem_map_of_mem _ ho

theorem step_none (st : List SceneObject) (x : SceneObject)
    (hc : x.instance_collection = none) : step st x = .ok st := by
  unfold step
  rw [hc]

theorem step_nolib (st : List SceneObject) (x : SceneObject) (coll : Collection)
    (hc : x.instance_collection = some coll) (hl : coll.library = none) :
    step st x = .ok st := by
  unfold step
  rw [hc]
  have hgoal : (match coll.library with
      | none => Except.ok st
      | some lib => removeMembers (setLink st x.name (linkMarker coll lib)) coll.objects)
      = (Except.ok st : Except String (List SceneObject)) := by
    rw [hl]
  exact hgoal

theorem step_linked (st : List SceneObject) (x : SceneObject) (coll : Collection) (lib : Library)
    (hc : x.instance_collection = some coll) (hl : coll.library = some lib) :
    step st x = removeMembers (setLink st x.name (linkMarker coll lib)) coll.objects := by
  unfold step
  rw [hc]
  have hgoal : (match coll.library with
      | none => Except.ok st
      | some l => removeMembers (setLink st x.name (linkMarker coll l)) coll.objects)
      = removeMembers (setLink st x.name (linkMarker coll lib)) coll.objects := by
    rw [hl]
  exact hgoal

theorem step_mem (st st' : List SceneObject) (x : SceneObject)
    (h : step st x = .ok st') (o : SceneObject) (ho : o ∈ st') :
    ∃ e ∈ st, e.name = o.name := by
  cases hc : x.instance_collection with
  | none =>
    rw [step_none st x hc] at h; injection h with h; exact ⟨o, h.symm ▸ ho, rfl⟩
  | some coll =>
    cases hl : coll.library with
    | none =>
      rw [step_nolib st x coll hc hl] at h; injection h with h; exact ⟨o, h.symm ▸ ho, rfl⟩
    | some lib =>
      rw [step_linked st x coll lib hc hl] at h
      exact setLink_mem st x.name (linkMarker coll lib) o
        (removeMembers_mem coll.objects _ st' h o ho)

theorem step_keeps (st st' : List SceneObject) (x : SceneObject)
    (h : step st x = .ok st') (e : SceneObject) (he : e ∈ st)
    (hne : e.name ≠ x.name) (hfree : e.name ∉ linkedMembers x) : e ∈ st' := by
  cases hc : x.instance_collection with
  | none => rw [step_none st x hc] at h; injection h with h; exact h ▸ he
  | some coll =>
    cases hl : coll.library with
    | none => rw [step_nolib st x coll hc hl] at h; injection h with h; exact h ▸ he
    | some lib =>
      rw [step_linked st x coll lib hc hl] at h
      have hm : e.name ∉ coll.objects := by
        simpa [linkedMembers, hc, hl] using hfree
      exact removeMembers_keeps coll.objects _ st' h e
        (setLink_keeps st x.name (linkMarker coll lib) e he hne) hm

theorem step_marks (st st' : List SceneObject) (obj : SceneObject)
    (coll : Collection) (hcoll : obj.instance_collection = some coll)
    (lib : Library) (hlib : coll.library = some lib)
    (hin : obj ∈ st) (hfree : obj.name ∉ coll.objects)
    (h : step st obj = .ok st') :
    withLink obj coll lib ∈ st' := by
  rw [step_linked st obj coll lib hcoll hlib] at h
  exact removeMembers_keeps coll.objects _ st' h _
    (setLink_marks st obj.name (linkMarker coll lib) obj hin rfl) hfree

theorem processAll_mem (l : List SceneObject) (st st' : List SceneObject)
    (h : processAll l st = .ok st') (o : SceneObject) (ho : o ∈ st') :
    ∃ e ∈ st, e.name = o.name := by
  induction l generalizing st with
  | nil =>
    unfold processAll at h
    injection h with h
    exact ⟨o, h.symm ▸ ho, rfl⟩
  | cons x rest ih =>
    unfold processAll at h
    cases hs : step st x with
    | error e => rw [hs] at h; exact Except.noConfusion h
    | ok st₁ =>
      rw [hs] at h
      obtain ⟨e, he, hen⟩ := ih st₁ h
      obtain ⟨e₀, he₀, he₀n⟩ := step_mem st st₁ x hs e he
      exact ⟨e₀, he₀, he₀n.trans hen⟩

theorem processAll_keeps (l : List SceneObject) (st st' : List SceneObject)
    (h : processAll l st = .ok st') (e : SceneObject) (he : e ∈ st)
    (hcond : ∀ x ∈ l, e.name ≠ x.name ∧ e.name ∉ linkedMembers x) : e ∈ st' := by
  induction l generalizing st with
  | nil =>
    unfold processAll at h
    injection h with h
    exact h ▸ he
  | cons x rest ih =>
    unfold processAll at h
    cases hs : step st x with
    | error er => rw [hs] at h; exact Except.noConfusion h
    | ok st₁ =>
      rw [hs] at h
      have hx := hcond x (List.mem_cons_self x rest)
      exact ih st₁ h (step_keeps st st₁ x hs e he hx.1 hx.2)
        (fun y hy => hcond y (List.mem_cons_of_mem x hy))

theorem processAll_append (l₁ l₂ : List SceneObject) (st st' : List SceneObject)
    (h : processAll (l₁ ++ l₂) st = .ok st') :
    ∃ st₁, processAll l₁ st = .ok st₁ ∧ processAll l₂ st₁ = .ok st' := by
  induction l₁ generalizing st with
  | nil => exact ⟨st, rfl, h⟩
  | cons x rest ih =>
    rw [List.cons_append] at h
    unfold processAll at h
    cases hs : step st x with
    | error e => rw [hs] at h; exact Except.noConfusion h
    | ok st₂ =>
      rw [hs] at h
      obtain ⟨st₁, h1, h2⟩ := ih st₂ h
      refine ⟨st₁, ?_, h2⟩
      unfold processAll
      rw [hs]
      exact h1

theorem argsAfterSep_eq_none (argv : List String) :
    argsAfterSep argv = none ↔ "--" ∉ argv := by
  induction argv with
  | nil => simp [argsAfterSep]
  | cons a rest ih =>
    unfold argsAfterSep
    by_cases ha : a = "--"
    · simp [ha]
    · have ha' : ¬("--" = a) := fun hcontra => ha hcontra.symm
      simp [ha, ha', ih]

/-! ### Claims about argument parsing and the export configuration -/

/-- Claim C2 (counterexample): the claim says debug mode is on iff the
literal `"--debug"` is present anywhere in the process argument list, but
with `argv = ["--debug"]` (flag present, separator `"--"` absent) the
parse fails, the blanket `except` swallows it, and debug stays off. -/
theorem debug_flag_anywhere_cex :
    "--debug" ∈ ["--debug"] ∧ (parseArgs ["--debug"]).2 = false := by decide

/-- Claim C2 (amended): debug mode is enabled iff `"--debug"` occurs among
the arguments after the first `"--"` separator; when the separator is
absent (or nothing follows it), debug keeps its default, off. -/
theorem debug_iff_flag_after_sep (argv : List String) :
    (parseArgs argv).2 = true ↔
      ∃ args, argsAfterSep argv = some args ∧ "--debug" ∈ args := by
  unfold parseArgs
  cases h : argsAfterSep argv with
  | none => simp
  | some args =>
    cases args with
    | nil => simp
    | cons a rest => simp

/-- Claim C3: when the separator `"--"` is missing from the argument list,
or nothing follows it, the failure is swallowed and both settings keep
their defaults: directory `"."` and debug mode `false`. -/
theorem defaults_on_parse_failure (argv : List String)
    (h : "--" ∉ argv ∨ argsAfterSep argv = some []) :
    parseArgs argv = (".", false) := by
  unfold parseArgs
  rcases h with h | h
  · rw [(argsAfterSep_eq_none argv).mpr h]
  · rw [h]

/-- Witness for C3 at the concrete argument list `["--"]`. -/
theorem defaults_on_parse_failure_witness : parseArgs ["--"] = (".", false) :=
  defaults_on_parse_failure ["--"] (Or.inr (by decide))

/-- Claim C4: when the first argument after `"--"` does not start with
`"-"`, the target directory is that argument with trailing slashes
stripped; when it does start with `"-"`, the directory stays `"."`, and a
following `"--debug"` still enables debug mode. -/
theorem dir_from_first_arg (argv : List String) (a : String) (rest : List String)
    (h : argsAfterSep argv = some (a :: rest)) :
    (parseArgs argv).1 = (if startswith a "-" then "." else rstripSlash a) ∧
    ("--debug" ∈ a :: rest → (parseArgs argv).2 = true) := by
  unfold parseArgs
  rw [h]
  exact ⟨rfl, fun hm => decide_eq_true hm⟩

/-- Witness for C4 at the concrete argument list `["--", "out/", "--debug"]`. -/
theorem dir_from_first_arg_witness :
    (parseArgs ["--", "out/", "--debug"]).1 =
      (if startswith "out/" "-" then "." else rstripSlash "out/") ∧
    ("--debug" ∈ "out/" :: ["--debug"] → (parseArgs ["--", "out/", "--debug"]).2 = true) :=
  dir_from_first_arg ["--", "out/", "--debug"] "out/" ["--debug"] (by decide)

/-- Claim C7: the option set depends only on the debug flag: non-debug
selects binary format `"GLB"` with automatic image inclusion `"AUTO"`,
debug selects `"GLTF_SEPARATE"` with images `"NONE"`, and in both modes
vertex colors are excluded. -/
theorem config_depends_only_on_debug (target_dir target_file : String) :
    (gltfOptions target_dir target_file false).export_format = "GLB" ∧
    (gltfOptions target_dir target_file false).export_image_format = "AUTO" ∧
    (gltfOptions target_dir target_file true).export_format = "GLTF_SEPARATE" ∧
    (gltfOptions target_dir target_file true).export_image_format = "NONE" ∧
    ∀ is_debug_mode : Bool,
      (gltfOptions target_dir target_file is_debug_mode).export_colors = false :=
  ⟨rfl, rfl, rfl, rfl, fun _ => rfl⟩

/-- Claim C8: an object with no instance-collection reference, or whose
instance collection has no backing library, is skipped: its loop iteration
leaves the scene state exactly as it was. -/
theorem skip_unlinked (st : List SceneObject) (obj : SceneObject)
    (h : obj.instance_collection = none ∨
      ∃ c, obj.instance_collection = some c ∧ c.library = none) :
    step st obj = .ok st := by
  rcases h with h | ⟨c, hc, hl⟩
  · exact step_none st obj h
  · exact step_nolib st obj c hc hl

/-- Witness for C8 on a concrete object without an instance collection. -/
theorem skip_unlinked_witness : step [] ⟨"plain", none, []⟩ = .ok [] :=
  skip_unlinked [] ⟨"plain", none, []⟩ (Or.inl rfl)

/-- Claim C9: the path handed to the exporter is `{directory}/{basename}`
where `basename` is the document file name with its `".blend"` suffix
removed; the hook appends no extension. -/
theorem export_filepath (argv : List String) (blend_file : String)
    (scene : List SceneObject) (res : ExportOutcome)
    (h : exportHook argv blend_file scene = .ok res) :
    res.options.filepath = (parseArgs argv).1 ++ "/" ++ removesuffix blend_file ".blend" := by
  unfold exportHook at h
  cases hp : preprocess scene with
  | error e => rw [hp] at h; exact Except.noConfusion h
  | ok sc =>
    rw [hp] at h
    injection h with h
    rw [← h]
    rfl

/-- Witness for C9 on a concrete invocation. -/
theorem export_filepath_witness :
    (ExportOutcome.mk [] (gltfOptions "out" "f" false)).options.filepath =
      (parseArgs ["--", "out"]).1 ++ "/" ++ removesuffix "f.blend" ".blend" :=
  export_filepath ["--", "out"] "f.blend" [] ⟨[], gltfOptions "out" "f" false⟩ (by decide)

/-! ### Claims about the pre-processing pass -/

/-- Claim C1: after the pre-processing pass completes, no member of a
linked (library-backed) instance collection referenced by a scene object
remains in the scene's object set. -/
theorem preprocess_clears_linked_members
    (scene scene' : List SceneObject) (h : preprocess scene = .ok scene')
    (obj : SceneObject) (hobj : obj ∈ scene)
    (coll : Collection) (hcoll : obj.instance_collection = some coll)
    (lib : Library) (hlib : coll.library = some lib)
    (m : String) (hm : m ∈ coll.objects) :
    ∀ o ∈ scene', o.name ≠ m := by
  obtain ⟨l₁, l₂, heq⟩ := List.append_of_mem hobj
  subst heq
  unfold preprocess at h
  obtain ⟨st₁, h1, h2⟩ := processAll_append l₁ (obj :: l₂) _ scene' h
  unfold processAll at h2
  cases hs : step st₁ obj with
  | error e => rw [hs] at h2; exact Except.noConfusion h2
  | ok st₂ =>
    rw [hs] at h2
    rw [step_linked st₁ obj coll lib hcoll hlib] at hs
    have habs : ∀ o ∈ st₂, o.name ≠ m :=
      removeMembers_removes coll.objects _ st₂ hs m hm
    intro o ho
    obtain ⟨e, he, hen⟩ := processAll_mem l₂ st₂ scene' h2 o ho
    rw [← hen]
    exact habs e he

/-- Witness for C1 instantiated on the concrete demo scene. -/
theorem preprocess_clears_linked_members_witness : refObjAfter.name ≠ "m1" :=
  preprocess_clears_linked_members demoScene [refObjAfter] (by decide)
    refObj (by decide) propsColl (by decide) assetsLib (by decide) "m1" (by decide)
    refObjAfter (by decide)

/-- Claim C5: in a scene with one object referencing a linked collection
with two members, the pass leaves the referencing object carrying the
marker (library name without `".blend"`, collection name) under the key
`"link"`, and both member objects are gone from the object set. -/
theorem linked_instance_scenario :
    preprocess demoScene = .ok [refObjAfter] ∧
    refObjAfter.extras.lookup "link" = some ⟨"assets", "Props"⟩ ∧
    (linkMarker propsColl assetsLib).source = removesuffix assetsLib.name ".blend" ∧
    (linkMarker propsColl assetsLib).name = propsColl.name ∧
    ∀ o ∈ [refObjAfter], o.name ≠ "m1" ∧ o.name ≠ "m2" := by decide

/-- Claim C6: when two objects reference the same linked collection, the
member removal runs once per referencing object with no guard: the first
iteration succeeds, the second one's removal of the already-removed member
raises the host error, which propagates uncaught out of the hook. -/
theorem shared_collection_double_removal :
    step doubleScene dRef1 = .ok [withLink dRef1 sharedColl sharedLib, dRef2] ∧
    step [withLink dRef1 sharedColl sharedLib, dRef2] dRef2
      = .error "ReferenceError: victim" ∧
    preprocess doubleScene = .error "ReferenceError: victim" ∧
    exportHook ["--", "out"] "f.blend" doubleScene
      = .error "ReferenceError: victim" := by decide

/-- Claim C10 (counterexample): a marker-receiving object does not always
survive the pass.  In `nestedScene`, `objA` references the linked
collection `collC` (so it receives the `"link"` marker, as the
intermediate state shows), yet `objX`'s later iteration removes `objA`
because `objA` is itself a member of the linked collection `collD`; the
pass still completes successfully without `objA`. -/
theorem marker_recipient_removed_cex :
    objA ∈ nestedScene ∧ objA.instance_collection = some collC ∧
    collC.library = some nestedLib ∧
    processAll [objB, objA] nestedScene = .ok [withLink objA collC nestedLib, objX] ∧
    preprocess nestedScene = .ok [withLink objX collD nestedLib] ∧
    (∀ o ∈ [withLink objX collD nestedLib], o.name ≠ objA.name) := by decide

/-- Claim C10 (amended): the pass never removes a referencing object on
account of its own iteration; provided scene object names are distinct and
the referencing object is not listed as a member of any linked instance
collection in the scene, it survives the whole pass, with its only change
being the addition of the `"link"` marker to its property store. -/
theorem preprocess_preserves_instancer
    (scene scene' : List SceneObject) (h : preprocess scene = .ok scene')
    (hnames : scene.Pairwise (fun a b => a.name ≠ b.name))
    (obj : SceneObject) (hobj : obj ∈ scene)
    (coll : Collection) (hcoll : obj.instance_collection = some coll)
    (lib : Library) (hlib : coll.library = some lib)
    (hfree : ∀ x ∈ scene, obj.name ∉ linkedMembers x) :
    withLink obj coll lib ∈ scene' := by
  obtain ⟨l₁, l₂, heq⟩ := List.append_of_mem hobj
  subst heq
  unfold preprocess at h
  obtain ⟨st₁, h1, h2⟩ := processAll_append l₁ (obj :: l₂) _ scene' h
  rw [List.pairwise_append] at hnames
  obtain ⟨hn₁, hn₂, hcross⟩ := hnames
  rw [List.pairwise_cons] at hn₂
  obtain ⟨hobjt, hnt⟩ := hn₂
  have hin₁ : obj ∈ st₁ := by
    refine processAll_keeps l₁ _ st₁ h1 obj hobj ?_
    intro x hx
    exact ⟨(hcross x hx obj (List.mem_cons_self obj l₂)).symm,
      hfree x (List.mem_append_left _ hx)⟩
  unfold processAll at h2
  cases hs : step st₁ obj with
  | error e => rw [hs] at h2; exact Except.noConfusion h2
  | ok st₂ =>
    rw [hs] at h2
    have hfreeobj : obj.name ∉ coll.objects := by
      have hlm := hfree obj hobj
      simpa [linkedMembers, hcoll, hlib] using hlm
    have hmark : withLink obj coll lib ∈ st₂ :=
      step_marks st₁ st₂ obj coll hcoll lib hlib hin₁ hfreeobj hs
    refine processAll_keeps l₂ st₂ scene' h2 _ hmark ?_
    intro y hy
    exact ⟨hobjt y hy,
      hfree y (List.mem_append_right _ (List.mem_cons_of_mem obj hy))⟩

/-- Witness for the amended C10 on a one-object scene. -/
theorem preprocess_preserves_instancer_witness :
    withLink soloRef soloColl soloLib ∈ [withLink soloRef soloColl soloLib] :=
  preprocess_preserves_instancer [soloRef] [withLink soloRef soloColl soloLib]
    (by decide) (by simp) soloRef (by decide) soloColl (by decide) soloLib (by decide)
    (by decide)
